import Mathlib

/-!
Verification of the pycsob payment-gateway client (`pycsob/utils.py`,
`pycsob/client.py`): the canonical message protocol (record normalization,
flattening, signing, verification) and response validation, shallowly
embedded in Lean.  Python strings are Lean `String`s (sequences of Unicode
scalar values), byte strings are `List Nat` with every element `< 256`,
Python `int` is Lean `Int`, and fallible code returns `Except PyErr`.
-/

namespace Pycsob

/-- Errors a modelled Python call can raise. -/
inductive PyErr where
  | keyError : PyErr
  | typeError : PyErr
  | valueError : String → PyErr
  | binasciiError : PyErr
  | csobVerifyError : String → PyErr
  deriving DecidableEq, Repr

/-- Characters stripped by Python `str.strip` / `str.rstrip` (ASCII whitespace;
the claims only exercise these). -/
def pySpace (c : Char) : Bool :=
  c = ' ' ∨ c = '\t' ∨ c = '\n' ∨ c = '\r' ∨ c = '\x0b' ∨ c = '\x0c'

/-- `str.rstrip()` on a character list. -/
def pyRstripL (l : List Char) : List Char :=
  (l.reverse.dropWhile pySpace).reverse

/-- `str.strip()` on a character list. -/
def pyStripL (l : List Char) : List Char :=
  pyRstripL (l.dropWhile pySpace)

/-- Python `s.rstrip()`. -/
def pyRstrip (s : String) : String :=
  String.mk (pyRstripL s.data)

/-- Python `s.strip()`. -/
def pyStrip (s : String) : String :=
  String.mk (pyStripL s.data)

/-- Python slicing-then-rstrip `s[:n].rstrip()`, the string-field formatter of
`ConvertMixin._format_field` (client.py line 44). -/
def pyTruncate (n : Nat) (s : String) : String :=
  pyRstrip (String.mk (s.data.take n))

/-- ASCII codes of a string (Python `s.encode('ascii')`; all claim-relevant
inputs are ASCII where this is used). -/
def strBytes (s : String) : List Nat :=
  s.data.map Char.toNat

/-- Bytes back to a string (Python `bs.decode()` for ASCII bytes). -/
def asciiStr (l : List Nat) : String :=
  String.mk (l.map Char.ofNat)

/-- UTF-8 encoding of one Unicode scalar value (model of CPython's utf-8
codec on a single code point; Lean `Char` ranges over exactly the scalar
values, for which utf-8 encoding never fails). -/
def utf8Bytes (c : Char) : List Nat :=
  let n := c.toNat
  if n < 128 then [n]
  else if n < 2048 then [192 + n / 64, 128 + n % 64]
  else if n < 65536 then [224 + n / 4096, 128 + n / 64 % 64, 128 + n % 64]
  else [240 + n / 262144, 128 + n / 4096 % 64, 128 + n / 64 % 64, 128 + n % 64]

/-- UTF-8 bytes of a character list. -/
def flatBytes : List Char → List Nat
  | [] => []
  | c :: t => utf8Bytes c ++ flatBytes t

/-- Modelled from the spec: the spec's claimed encoding of one character —
ASCII code points unchanged, every non-ASCII code point replaced by its
numeric XML character reference `&#NNNN;`.  Refinement-comparison definition
following the spec's words (spec §4.3); the source's actual encoding is
`utf8Bytes`. -/
def specEscChar (c : Char) : List Nat :=
  if c.toNat < 128 then [c.toNat] else strBytes ("&#" ++ toString c.toNat ++ ";")

/-- Modelled from the spec: the spec's claimed byte encoding of a character
list (see `specEscChar`). -/
def specEscBytes : List Char → List Nat
  | [] => []
  | c :: t => specEscChar c ++ specEscBytes t

/-! ## Base64 (model of Python `base64.b64encode` / `base64.b64decode`) -/

/-- Standard base64 alphabet: sextet value to ASCII code. -/
def sextetChar (s : Nat) : Nat :=
  if s < 26 then 65 + s
  else if s < 52 then 97 + (s - 26)
  else if s < 62 then 48 + (s - 52)
  else if s = 62 then 43
  else 47

/-- Inverse of the base64 alphabet: ASCII code to sextet value. -/
def sextetOfChar (c : Nat) : Option Nat :=
  if 65 ≤ c ∧ c ≤ 90 then some (c - 65)
  else if 97 ≤ c ∧ c ≤ 122 then some (c - 97 + 26)
  else if 48 ≤ c ∧ c ≤ 57 then some (c - 48 + 52)
  else if c = 43 then some 62
  else if c = 47 then some 63
  else none

/-- `base64.b64encode` on bytes, producing the ASCII codes of the encoding
(with `=` padding, code 61). -/
def b64encodeL : List Nat → List Nat
  | a :: b :: c :: rest =>
      sextetChar (a / 4) :: sextetChar (a % 4 * 16 + b / 16) ::
      sextetChar (b % 16 * 4 + c / 64) :: sextetChar (c % 64) :: b64encodeL rest
  | [a, b] => [sextetChar (a / 4), sextetChar (a % 4 * 16 + b / 16), sextetChar (b % 16 * 4), 61]
  | [a] => [sextetChar (a / 4), sextetChar (a % 4 * 16), 61, 61]
  | [] => []

/-- Decode base64 quads after alphabet filtering; `none` models
`binascii.Error` (incorrect padding / stray padding). -/
def b64decodeGroups : List Nat → Option (List Nat)
  | [] => some []
  | c1 :: c2 :: c3 :: c4 :: rest =>
    match sextetOfChar c1, sextetOfChar c2 with
    | some s1, some s2 =>
      if c3 = 61 ∧ c4 = 61 ∧ rest = [] then
        some [s1 * 4 + s2 / 16]
      else
        match sextetOfChar c3 with
        | some s3 =>
          if c4 = 61 ∧ rest = [] then
            some [s1 * 4 + s2 / 16, s2 % 16 * 16 + s3 / 4]
          else
            match sextetOfChar c4 with
            | some s4 =>
              (b64decodeGroups rest).map
                (fun tail => (s1 * 4 + s2 / 16) :: (s2 % 16 * 16 + s3 / 4) :: (s3 % 4 * 64 + s4) :: tail)
            | none => none
        | none => none
    | _, _ => none
  | _ => none

/-- Characters kept by Python's `b64decode` pre-filter (alphabet characters
and `=`; everything else is discarded before the padding check). -/
def keepB64 (c : Nat) : Bool :=
  c = 61 ∨ (sextetOfChar c).isSome

/-- `base64.b64decode` (default non-validating mode): discard non-alphabet
characters, then decode; `none` models the raised `binascii.Error`. -/
def b64decodeL (l : List Nat) : Option (List Nat) :=
  b64decodeGroups (l.filter keepB64)

/-- Big-endian octets of a natural number, `k` octets (I2OSP). -/
def natToBytes : Nat → Nat → List Nat
  | 0, _ => []
  | k + 1, x => natToBytes k (x / 256) ++ [x % 256]

/-- Big-endian octets back to a natural number (OS2IP). -/
def bytesToNat (l : List Nat) : Nat :=
  l.foldl (fun acc b => acc * 256 + b) 0

/-! ## Payload values -/

/-- Python values appearing in payloads: strings, ints, bools, lists,
(ordered) dicts, `None`, plus `bytes` (produced by `b64decode`) and
`datetime` objects (produced by `dttm_decode`, carried by their source
string). -/
inductive Value where
  | vStr : String → Value
  | vInt : Int → Value
  | vBool : Bool → Value
  | vList : List Value → Value
  | vDict : List (String × Value) → Value
  | vNone : Value
  | vBytes : List Nat → Value
  | vDt : String → Value

/-- Modelled from the spec: the membership test `value in conf.EMPTY_VALUES`
(`conf.py` is not under src/).  Spec §3: a field is empty when it is
"absent/None, empty string, empty list, empty ordered map"; Python `in`
compares with `==`, which is `False` across the other types (note `0` and
`False` are not in the tuple, hence not empty). -/
def isEmptyValue : Value → Bool
  | .vNone => true
  | .vStr s => s = ""
  | .vList l => l.isEmpty
  | .vDict d => d.isEmpty
  | _ => false

/-- `str_or_jsbool` (utils.py lines 98-101): booleans render as lowercase
`true` / `false`; anything else as `str(value).strip()`.  The `vList` /
`vDict` branches are unreachable from `mk_msg_item`, which recurses into
containers first. -/
def str_or_jsbool : Value → String
  | .vBool b => if b then "true" else "false"
  | .vStr s => pyStrip s
  | .vInt i => pyStrip (toString i)
  | .vNone => pyStrip "None"
  | .vBytes _ => pyStrip ""
  | .vDt s => pyStrip s
  | .vList _ => pyStrip ""
  | .vDict _ => pyStrip ""

mutual

/-- `mk_msg_item` (utils.py lines 64-77): empty values contribute no tokens;
lists and dicts are flattened in order; scalars go through
`str_or_jsbool`. -/
def mk_msg_item (v : Value) : List String :=
  if isEmptyValue v then []
  else
    match v with
    | .vList l => mk_msg_list l
    | .vDict d => mk_msg_dict d
    | x => [str_or_jsbool x]

/-- The `for item in value: data.extend(mk_msg_item(item))` loop over a
list. -/
def mk_msg_list : List Value → List String
  | [] => []
  | v :: vs => mk_msg_item v ++ mk_msg_list vs

/-- The `for item in value.values(): data.extend(mk_msg_item(item))` loop
over an ordered dict. -/
def mk_msg_dict : List (String × Value) → List String
  | [] => []
  | (_, v) :: vs => mk_msg_item v ++ mk_msg_dict vs

end

/-- `mk_msg_for_sign` (utils.py lines 80-82):
`'|'.join(mk_msg_item(payload)).encode('utf-8', 'xmlcharrefreplace')`.
The `xmlcharrefreplace` handler fires only on characters the utf-8 codec
cannot encode; every Unicode scalar value is utf-8-encodable, so the bytes
are the plain UTF-8 encoding of the joined string. -/
def mk_msg_for_sign (payload : List (String × Value)) : List Nat :=
  flatBytes (String.intercalate "|" (mk_msg_item (.vDict payload))).data

/-- Modelled from the spec: the byte encoding the spec claims for
`mk_msg_for_sign` — the `|`-join with every non-ASCII code point replaced by
`&#NNNN;` (spec §4.3).  Refinement-comparison definition. -/
def specXmlcharrefEncode (payload : List (String × Value)) : List Nat :=
  specEscBytes (String.intercalate "|" (mk_msg_item (.vDict payload))).data

/-! ## RSA PKCS#1 v1.5 sign / verify

Model of the external `Crypto.Signature.PKCS1_v1_5` scheme used by
utils.py: textbook RSA on the EMSA-PKCS1-v1_5 encoding of the SHA-256
digest.  The hash-and-encode step (`SHA256.new` plus the deterministic
digest-info padding) is abstracted as a function argument `emsa` from
message bytes to the encoded integer. -/

/-- RSA key material: modulus `n`, public exponent `e`, private exponent
`d`, and the modulus octet length `k`. -/
structure RsaKey where
  n : Nat
  e : Nat
  d : Nat
  k : Nat

/-- `sign` (utils.py lines 50-54): hash-encode the canonical message, apply
the RSA private operation, base64-encode, decode to `str`. -/
def sign (payload : List (String × Value)) (key : RsaKey) (emsa : List Nat → Nat) : String :=
  asciiStr (b64encodeL (natToBytes key.k (emsa (mk_msg_for_sign payload) ^ key.d % key.n)))

/-- `verify` (utils.py lines 57-61): recompute the digest encoding,
base64-decode the signature (raising `binascii.Error` on malformed input),
and compare against the RSA public operation of the decoded signature. -/
def verify (payload : List (String × Value)) (signature : String) (key : RsaKey)
    (emsa : List Nat → Nat) : Except PyErr Bool :=
  match b64decodeL (strBytes signature) with
  | none => .error .binasciiError
  | some bs => .ok (bytesToNat bs ^ key.e % key.n == emsa (mk_msg_for_sign payload))

/-! ## Ordered-dict helpers (Python dict operations on association lists) -/

/-- Python `d[k]` / `k in d` as an optional lookup. -/
def dictGet (d : List (String × Value)) (k : String) : Option Value :=
  match d with
  | [] => none
  | (k0, v) :: t => if k0 = k then some v else dictGet t k

/-- Python `d[k] = v`: replace in place if present, else append. -/
def dictSet (d : List (String × Value)) (k : String) (v : Value) : List (String × Value) :=
  match d with
  | [] => [(k, v)]
  | (k0, v0) :: t => if k0 = k then (k0, v) :: t else (k0, v0) :: dictSet t k v

/-- Remove the first binding of `k`. -/
def dictErase (d : List (String × Value)) (k : String) : List (String × Value) :=
  match d with
  | [] => []
  | (k0, v0) :: t => if k0 = k then t else (k0, v0) :: dictErase t k

/-- Python `d.pop(k)`: the value and the remaining dict, or `none` for the
raised `KeyError`. -/
def dictPop (d : List (String × Value)) (k : String) : Option (Value × List (String × Value)) :=
  match dictGet d k with
  | none => none
  | some v => some (v, dictErase d k)

/-- `mk_payload` (utils.py lines 85-88): drop empty values, keep order, and
append the signature under the `signature` key. -/
def mk_payload (key : RsaKey) (emsa : List Nat → Nat) (pairs : List (String × Value)) :
    List (String × Value) :=
  let payload := pairs.filter (fun kv => ¬ isEmptyValue kv.2)
  dictSet payload "signature" (.vStr (sign payload key emsa))

/-! ## Typed records (client.py dataclasses with `ConvertMixin.to_dict`)

`to_dict` iterates fields in declaration order (or `_ordered_fields` order),
skips fields whose raw value is in `EMPTY_VALUES`, converts nested records
via their own `to_dict` (note: the emptiness test happens on the raw
dataclass instance, *before* the nested conversion), and then formats via
`_format_field`: enums become `str(value.value)`, datetimes `isoformat()`,
and strings listed in `_max_length` are truncated then right-stripped.  Each
record's `to_dict` below is that loop unrolled over its declared fields. -/

/-- A Python `datetime`, carried by its `isoformat()` rendering (the only
observation the normalizer makes of it). -/
structure PyDatetime where
  iso : String

/-- An optional plain string field (no length limit). -/
def optStrField (k : String) (v : Option String) : List (String × Value) :=
  match v with
  | none => []
  | some s => if s = "" then [] else [(k, .vStr s)]

/-- An optional string field with a `_max_length` entry `n`. -/
def optStrFieldMax (k : String) (n : Nat) (v : Option String) : List (String × Value) :=
  match v with
  | none => []
  | some s => if s = "" then [] else [(k, .vStr (pyTruncate n s))]

/-- An optional datetime field (formatted with `isoformat()`). -/
def optDtField (k : String) (v : Option PyDatetime) : List (String × Value) :=
  match v with
  | none => []
  | some d => [(k, .vStr d.iso)]

/-- An optional integer field (`0` is not an empty value). -/
def optIntField (k : String) (v : Option Int) : List (String × Value) :=
  match v with
  | none => []
  | some i => [(k, .vInt i)]

/-- An optional boolean field (`False` is not an empty value). -/
def optBoolField (k : String) (v : Option Bool) : List (String × Value) :=
  match v with
  | none => []
  | some b => [(k, .vBool b)]

/-- `CartItem` (client.py lines 130-140): `name` ≤ 20, `description` ≤ 40. -/
structure CartItem where
  name : String
  quantity : Int
  amount : Int
  description : Option String := none

/-- `CartItem.to_dict`. -/
def CartItem.to_dict (x : CartItem) : List (String × Value) :=
  (if x.name = "" then [] else [("name", .vStr (pyTruncate 20 x.name))]) ++
  [("quantity", .vInt x.quantity), ("amount", .vInt x.amount)] ++
  optStrFieldMax "description" 40 x.description

/-- `CustomerAccount` (client.py lines 143-155). -/
structure CustomerAccount where
  created_at : Option PyDatetime := none
  changed_at : Option PyDatetime := none
  changed_pwd_at : Option PyDatetime := none
  order_history : Option Int := none
  payments_day : Option Int := none
  payments_year : Option Int := none
  oneclick_adds : Option Int := none
  suspicious : Option Bool := none

/-- `CustomerAccount.to_dict`. -/
def CustomerAccount.to_dict (x : CustomerAccount) : List (String × Value) :=
  optDtField "createdAt" x.created_at ++
  optDtField "changedAt" x.changed_at ++
  optDtField "changedPwdAt" x.changed_pwd_at ++
  optIntField "orderHistory" x.order_history ++
  optIntField "paymentsDay" x.payments_day ++
  optIntField "paymentsYear" x.payments_year ++
  optIntField "oneclickAdds" x.oneclick_adds ++
  optBoolField "suspicious" x.suspicious

/-- `CustomerLoginType` (client.py lines 158-170), with its wire string. -/
inductive CustomerLoginType where
  | guest | account | federated | issuer | thirdparty | fido | fido_signed | api
  deriving DecidableEq

/-- The enum's `.value`. -/
def CustomerLoginType.value : CustomerLoginType → String
  | .guest => "guest"
  | .account => "account"
  | .federated => "federated"
  | .issuer => "issuer"
  | .thirdparty => "thirdparty"
  | .fido => "fido"
  | .fido_signed => "fido_signed"
  | .api => "api"

/-- `CustomerLogin` (client.py lines 173-180). -/
structure CustomerLogin where
  auth : Option CustomerLoginType := none
  auth_at : Option PyDatetime := none
  auth_data : Option String := none

/-- `CustomerLogin.to_dict`. -/
def CustomerLogin.to_dict (x : CustomerLogin) : List (String × Value) :=
  (match x.auth with
   | none => []
   | some a => [("auth", .vStr a.value)]) ++
  optDtField "authAt" x.auth_at ++
  optStrField "authData" x.auth_data

/-- `Customer` (client.py lines 183-196): `name` ≤ 45; nested account and
login records. -/
structure Customer where
  name : String
  email : Option String := none
  home_phone : Option String := none
  work_phone : Option String := none
  mobile_phone : Option String := none
  account : Option CustomerAccount := none
  login : Option CustomerLogin := none

/-- `Customer.to_dict`.  The nested `account` / `login` values are converted
with their own `to_dict` and always emitted when the raw field is not
`None` — the `EMPTY_VALUES` test ran on the dataclass instance (never equal
to any empty sentinel), not on the converted dict. -/
def Customer.to_dict (x : Customer) : List (String × Value) :=
  (if x.name = "" then [] else [("name", .vStr (pyTruncate 45 x.name))]) ++
  optStrField "email" x.email ++
  optStrField "homePhone" x.home_phone ++
  optStrField "workPhone" x.work_phone ++
  optStrField "mobilePhone" x.mobile_phone ++
  (match x.account with
   | none => []
   | some a => [("account", .vDict a.to_dict)]) ++
  (match x.login with
   | none => []
   | some l => [("login", .vDict l.to_dict)])

/-- `OrderAddress` (client.py lines 200-213): note `_ordered_fields`
reorders emission to address_1, address_2, address_3, city, zip, country,
state; the string limits are 50/50/50/50/16. -/
structure OrderAddress where
  address_1 : String
  city : String
  zip : String
  country : String
  address_2 : Option String := none
  address_3 : Option String := none
  state : Option String := none

/-- `OrderAddress.to_dict` (in `_ordered_fields` order). -/
def OrderAddress.to_dict (x : OrderAddress) : List (String × Value) :=
  (if x.address_1 = "" then [] else [("address1", .vStr (pyTruncate 50 x.address_1))]) ++
  optStrFieldMax "address2" 50 x.address_2 ++
  optStrFieldMax "address3" 50 x.address_3 ++
  (if x.city = "" then [] else [("city", .vStr (pyTruncate 50 x.city))]) ++
  (if x.zip = "" then [] else [("zip", .vStr (pyTruncate 16 x.zip))]) ++
  (if x.country = "" then [] else [("country", .vStr x.country)]) ++
  optStrField "state" x.state

/-- `Currency` (client.py lines 66-78). -/
inductive Currency where
  | czk | eur | usd | gbp | huf | pln | ron | nok | sek
  deriving DecidableEq

/-- The enum's `.value`. -/
def Currency.value : Currency → String
  | .czk => "CZK"
  | .eur => "EUR"
  | .usd => "USD"
  | .gbp => "GBP"
  | .huf => "HUF"
  | .pln => "PLN"
  | .ron => "RON"
  | .nok => "NOK"
  | .sek => "SEK"

/-- `OrderGiftcards` (client.py lines 216-223). -/
structure OrderGiftcards where
  total_amount : Option Int := none
  currency : Option Currency := none
  quantity : Option Int := none

/-- `OrderGiftcards.to_dict`. -/
def OrderGiftcards.to_dict (x : OrderGiftcards) : List (String × Value) :=
  optIntField "totalAmount" x.total_amount ++
  (match x.currency with
   | none => []
   | some c => [("currency", .vStr c.value)]) ++
  optIntField "quantity" x.quantity

/-- `OrderType` (client.py lines 226-235). -/
inductive OrderType where
  | purchase | balance | prepaid | cash | check
  deriving DecidableEq

/-- The enum's `.value`. -/
def OrderType.value : OrderType → String
  | .purchase => "purchase"
  | .balance => "balance"
  | .prepaid => "prepaid"
  | .cash => "cash"
  | .check => "check"

/-- `OrderAvailability` (client.py lines 238-243). -/
inductive OrderAvailability where
  | now | preorder
  deriving DecidableEq

/-- The enum's `.value`. -/
def OrderAvailability.value : OrderAvailability → String
  | .now => "now"
  | .preorder => "preorder"

/-- `OrderDelivery` (client.py lines 247-257). -/
inductive OrderDelivery where
  | shipping | shipping_verified | instore | digital | ticket | other
  deriving DecidableEq

/-- The enum's `.value`. -/
def OrderDelivery.value : OrderDelivery → String
  | .shipping => "shipping"
  | .shipping_verified => "shipping_verified"
  | .instore => "instore"
  | .digital => "digital"
  | .ticket => "ticket"
  | .other => "other"

/-- `OrderDeliveryMode` (client.py lines 260-268): an integer enum, so
`str(value.value)` renders the number. -/
inductive OrderDeliveryMode where
  | electronic | same_day | next_day | later
  deriving DecidableEq

/-- The enum's `.value` (an int). -/
def OrderDeliveryMode.value : OrderDeliveryMode → Nat
  | .electronic => 0
  | .same_day => 1
  | .next_day => 2
  | .later => 3

/-- `OrderAvailabilityType = Union[OrderAvailability, datetime]`
(client.py line 271). -/
inductive OrderAvailabilityV where
  | enum : OrderAvailability → OrderAvailabilityV
  | at : PyDatetime → OrderAvailabilityV

/-- `Order` (client.py lines 274-292): `delivery_email` ≤ 100. -/
structure Order where
  type : Option OrderType := none
  availability : Option OrderAvailabilityV := none
  delivery : Option OrderDelivery := none
  delivery_mode : Option OrderDeliveryMode := none
  delivery_email : Option String := none
  name_match : Option Bool := none
  address_match : Option Bool := none
  billing : Option OrderAddress := none
  shipping : Option OrderAddress := none
  shipping_added_at : Option PyDatetime := none
  reorder : Option Bool := none
  giftcards : Option OrderGiftcards := none

/-- `Order.to_dict`. -/
def Order.to_dict (x : Order) : List (String × Value) :=
  (match x.type with
   | none => []
   | some t => [("type", .vStr t.value)]) ++
  (match x.availability with
   | none => []
   | some (.enum a) => [("availability", .vStr a.value)]
   | some (.at d) => [("availability", .vStr d.iso)]) ++
  (match x.delivery with
   | none => []
   | some d => [("delivery", .vStr d.value)]) ++
  (match x.delivery_mode with
   | none => []
   | some m => [("deliveryMode", .vStr (toString m.value))]) ++
  optStrFieldMax "deliveryEmail" 100 x.delivery_email ++
  optBoolField "nameMatch" x.name_match ++
  optBoolField "addressMatch" x.address_match ++
  (match x.billing with
   | none => []
   | some b => [("billing", .vDict b.to_dict)]) ++
  (match x.shipping with
   | none => []
   | some s => [("shipping", .vDict s.to_dict)]) ++
  optDtField "shippingAddedAt" x.shipping_added_at ++
  optBoolField "reorder" x.reorder ++
  (match x.giftcards with
   | none => []
   | some g => [("giftcards", .vDict g.to_dict)])

/-! ## Response validation (utils.py `validate_response`, client.py
`_gateway_return`) -/

/-- Modelled from the spec: `conf.RESPONSE_KEYS` (`conf.py` is not under
src/) — the gateway's fixed canonical response-key order (spec §4.5 step 2
and §6), covering the keys exercised by the repository's tests: `payId`,
`customId`, `dttm`, `resultCode`, `resultMessage`, `paymentStatus`,
`authCode`, `merchantData`, `customerCode`. -/
def RESPONSE_KEYS : List String :=
  ["payId", "customId", "dttm", "resultCode", "resultMessage", "paymentStatus",
   "authCode", "merchantData", "customerCode"]

/-- The fixed key subset of a `maskClnRP` extension (utils.py line 138). -/
def maskclnrpKeys : List String :=
  ["extension", "dttm", "maskedCln", "expiration", "longMaskedCln"]

/-- Re-projection of recognized keys in canonical order:
`for k in keys: if k in data: payload[k] = data[k]`. -/
def projectKeys (keys : List String) (data : List (String × Value)) : List (String × Value) :=
  keys.filterMap (fun k => (dictGet data k).map (fun v => (k, v)))

/-- `dttm_decode` (utils.py lines 108-110): model of
`datetime.strptime(value, '%Y%m%d%H%M%S')` keeping the source string — the
claims never inspect the parsed components, only whether parsing succeeds
(`none` models the raised `ValueError`). -/
def dttm_decode (s : String) : Option String :=
  if s.length = 14 ∧ s.data.all Char.isDigit then some s else none

/-- The `payload['dttime'] = dttm_decode(payload['dttm'])` step of
`validate_response` (line 130-131), a no-op when `dttm` is absent. -/
def dttmStep (payload : List (String × Value)) : Except PyErr (List (String × Value)) :=
  match dictGet payload "dttm" with
  | none => .ok payload
  | some (.vStr s) =>
    match dttm_decode s with
    | some d => .ok (dictSet payload "dttime" (.vDt d))
    | none => .error (.valueError "time data does not match format")
  | some _ => .error .typeError

/-- The Python test `one['extension'] == 'maskClnRP'`: `==` against a string
is `False` for every non-string value. -/
def isMaskClnRP : Value → Bool
  | .vStr s => s = "maskClnRP"
  | _ => false

/-- The extension loop of `validate_response` (utils.py lines 139-148):
elements whose `extension` discriminator is not `maskClnRP` are skipped;
matching ones are re-projected onto `maskclnrpKeys` and verified with their
own embedded signature, a failed verification raising `CsobVerifyError`. -/
def process_extensions (key : RsaKey) (emsa : List Nat → Nat) :
    List Value → Except PyErr (List (List (String × Value)))
  | [] => .ok []
  | one :: rest =>
    match one with
    | .vDict d =>
      match dictGet d "extension" with
      | none => .error .keyError
      | some disc =>
        if isMaskClnRP disc then
          let o := projectKeys maskclnrpKeys d
          match dictGet d "signature" with
          | none => .error .keyError
          | some (.vStr s) =>
            match verify o s key emsa with
            | .error e => .error e
            | .ok true => (process_extensions key emsa rest).map (fun es => o :: es)
            | .ok false => .error (.csobVerifyError "Cannot verify masked card extension response")
          | some _ => .error .typeError
        else process_extensions key emsa rest
    | _ => .error .typeError

/-- A validated response: the verified payload and the verified
extensions. -/
structure VResp where
  payload : List (String × Value)
  extensions : List (List (String × Value))

/-- `validate_response` (utils.py lines 113-150) on an already-parsed JSON
body: pop `signature`, re-project `RESPONSE_KEYS` in canonical order, verify
(raising `CsobVerifyError` on mismatch), decode `dttm`, and verify any
`maskClnRP` extensions.  Raising is modelled as `Except.error`: no partial
result is returned.  Note the function does not touch `merchantData`. -/
def validate_response (body : List (String × Value)) (key : RsaKey)
    (emsa : List Nat → Nat) : Except PyErr VResp :=
  match dictPop body "signature" with
  | none => .error .keyError
  | some (sigv, data) =>
    match sigv with
    | .vStr s =>
      let payload := projectKeys RESPONSE_KEYS data
      match verify payload s key emsa with
      | .error e => .error e
      | .ok false => .error (.csobVerifyError "Cannot verify response")
      | .ok true =>
        match dttmStep payload with
        | .error e => .error e
        | .ok payload2 =>
          match dictGet data "extensions" with
          | none => .ok ⟨payload2, []⟩
          | some (.vList exts) =>
            match process_extensions key emsa exts with
            | .error e => .error e
            | .ok es => .ok ⟨payload2, es⟩
          | some _ => .error .typeError
    | _ => .error .typeError

/-- `int(v)` as used by `_gateway_return` for `resultCode` /
`paymentStatus`: ints pass through, bools widen, decimal strings (with an
optional sign) parse, anything else raises. -/
def pyIntConv : Value → Except PyErr Value
  | .vInt i => .ok (.vInt i)
  | .vBool b => .ok (.vInt (if b then 1 else 0))
  | .vStr s =>
    match s.data with
    | [] => .error (.valueError "invalid literal for int")
    | l =>
      let core := if l.head? = some '-' then l.drop 1 else l
      if core ≠ [] ∧ core.all Char.isDigit then
        .ok (.vInt (if l.head? = some '-' then -(Int.ofNat (Nat.ofDigits 10 ((core.map (fun c => c.toNat - 48)).reverse))) else Int.ofNat (Nat.ofDigits 10 ((core.map (fun c => c.toNat - 48)).reverse))))
      else .error (.valueError "invalid literal for int")
  | _ => .error .typeError

/-- The projection loop of `_gateway_return` (client.py lines 593-596):
`o[k] = int(datadict[k]) if k in ('resultCode', 'paymentStatus') else
datadict[k]` over `RESPONSE_KEYS`. -/
def gatewayProject (datadict : List (String × Value)) :
    List String → Except PyErr (List (String × Value))
  | [] => .ok []
  | k :: ks =>
    match dictGet datadict k with
    | none => gatewayProject datadict ks
    | some v =>
      match (if k = "resultCode" ∨ k = "paymentStatus" then pyIntConv v else .ok v) with
      | .error e => .error e
      | .ok v1 =>
        match gatewayProject datadict ks with
        | .error e => .error e
        | .ok rest => .ok ((k, v1) :: rest)

/-- `_gateway_return` (client.py lines 586-603): project and retype the
response keys, verify the detached signature, decode `dttm`, and
base64-decode `merchantData` to raw bytes. -/
def gateway_return (datadict : List (String × Value)) (key : RsaKey)
    (emsa : List Nat → Nat) : Except PyErr (List (String × Value)) :=
  match gatewayProject datadict RESPONSE_KEYS with
  | .error e => .error e
  | .ok o =>
    match dictGet datadict "signature" with
    | none => .error .keyError
    | some (.vStr s) =>
      match verify o s key emsa with
      | .error e => .error e
      | .ok false => .error (.csobVerifyError "Unverified gateway return data")
      | .ok true =>
        match dttmStep o with
        | .error e => .error e
        | .ok o2 =>
          match dictGet o2 "merchantData" with
          | none => .ok o2
          | some (.vStr md) =>
            match b64decodeL (strBytes md) with
            | none => .error .binasciiError
            | some bs => .ok (dictSet o2 "merchantData" (.vBytes bs))
          | some _ => .error .typeError
    | some _ => .error .typeError

/-- `encode_merchant_data` (utils.py lines 169-175): base64-encode, raise
`ValueError` when the encoding exceeds 255 characters, pass `None`
through. -/
def encode_merchant_data (merchant_data : Option (List Nat)) : Except PyErr (Option String) :=
  match merchant_data with
  | none => .ok none
  | some bs =>
    let enc := b64encodeL bs
    if enc.length > 255 then
      .error (.valueError "Merchant data length encoded to BASE64 is over 255 chars")
    else .ok (some (asciiStr enc))

/-- The arguments of `CsobClient.payment_init` that feed the request
payload (client.py lines 318-399). -/
structure PaymentInitArgs where
  merchant_id : String
  order_no : String
  dttm : String
  pay_operation : String
  pay_method : String
  total_amount : Int
  currency : String
  close_payment : Bool
  return_url : String
  return_method : String
  cart : List CartItem
  customer : Option Customer := none
  order : Option Order := none
  merchant_data : Option (List Nat) := none
  customer_id : Option String := none
  language : String
  ttl_sec : Int
  logo_version : Option Int := none
  color_scheme_version : Option Int := none
  custom_expiry : Option String := none

/-- An optional value rendered as Python passes it into the pairs tuple
(`None` when absent). -/
def optV (f : α → Value) : Option α → Value
  | none => .vNone
  | some a => f a

/-- `CsobClient.payment_init` up to (and excluding) the network call
(client.py lines 374-401): builds the pairs tuple — during which
`encode_merchant_data` may raise, aborting before anything is sent — and
signs the filtered payload with `mk_payload`.  The HTTP POST happens only
after this returns `.ok`. -/
def payment_init_request (a : PaymentInitArgs) (key : RsaKey)
    (emsa : List Nat → Nat) : Except PyErr (List (String × Value)) :=
  match encode_merchant_data a.merchant_data with
  | .error e => .error e
  | .ok md => .ok (mk_payload key emsa
    [("merchantId", .vStr a.merchant_id),
     ("orderNo", .vStr a.order_no),
     ("dttm", .vStr a.dttm),
     ("payOperation", .vStr a.pay_operation),
     ("payMethod", .vStr a.pay_method),
     ("totalAmount", .vInt a.total_amount),
     ("currency", .vStr a.currency),
     ("closePayment", .vBool a.close_payment),
     ("returnUrl", .vStr a.return_url),
     ("returnMethod", .vStr a.return_method),
     ("cart", .vList (a.cart.map (fun i => .vDict i.to_dict))),
     ("customer", optV (fun c : Customer => .vDict c.to_dict) a.customer),
     ("order", optV (fun o : Order => .vDict o.to_dict) a.order),
     ("merchantData", optV Value.vStr md),
     ("customerId", optV Value.vStr a.customer_id),
     ("language", .vStr a.language),
     ("ttlSec", .vInt a.ttl_sec),
     ("logoVersion", optV Value.vInt a.logo_version),
     ("colorSchemeVersion", optV Value.vInt a.color_scheme_version),
     ("customExpiry", optV Value.vStr a.custom_expiry)])

/-! ## Base64 roundtrip lemmas -/

theorem sextet_round (s : Nat) (h : s < 64) : sextetOfChar (sextetChar s) = some s := by
  revert h
  revert s
  decide

theorem sextetChar_lt_128 (s : Nat) (h : s < 64) : sextetChar s < 128 := by
  revert h
  revert s
  decide

theorem sextetChar_ne_61 (s : Nat) (h : s < 64) : sextetChar s ≠ 61 := by
  revert h
  revert s
  decide

theorem keepB64_sextetChar (s : Nat) (h : s < 64) : keepB64 (sextetChar s) = true := by
  simp [keepB64, sextet_round s h]

theorem keepB64_61 : keepB64 61 = true := by
  decide

theorem b64encodeL_mem (bs : List Nat) (hb : ∀ x ∈ bs, x < 256) :
    ∀ y ∈ b64encodeL bs, keepB64 y = true ∧ y < 128 := by
  induction bs using b64encodeL.induct with
  | case1 a b c rest ih =>
    have ha : a < 256 := hb a (by simp)
    have hbb : b < 256 := hb b (by simp)
    have hc : c < 256 := hb c (by simp)
    have h1 : a / 4 < 64 := by omega
    have h2 : a % 4 * 16 + b / 16 < 64 := by omega
    have h3 : b % 16 * 4 + c / 64 < 64 := by omega
    have h4 : c % 64 < 64 := by omega
    intro y hy
    simp only [b64encodeL, List.mem_cons] at hy
    rcases hy with rfl | rfl | rfl | rfl | hy
    · exact ⟨keepB64_sextetChar _ h1, sextetChar_lt_128 _ h1⟩
    · exact ⟨keepB64_sextetChar _ h2, sextetChar_lt_128 _ h2⟩
    · exact ⟨keepB64_sextetChar _ h3, sextetChar_lt_128 _ h3⟩
    · exact ⟨keepB64_sextetChar _ h4, sextetChar_lt_128 _ h4⟩
    · exact ih (fun x hx => hb x (by simp [hx])) y hy
  | case2 a b =>
    have ha : a < 256 := hb a (by simp)
    have hbb : b < 256 := hb b (by simp)
    have h1 : a / 4 < 64 := by omega
    have h2 : a % 4 * 16 + b / 16 < 64 := by omega
    have h3 : b % 16 * 4 < 64 := by omega
    intro y hy
    simp only [b64encodeL, List.mem_cons] at hy
    rcases hy with rfl | rfl | rfl | rfl | hy
    · exact ⟨keepB64_sextetChar _ h1, sextetChar_lt_128 _ h1⟩
    · exact ⟨keepB64_sextetChar _ h2, sextetChar_lt_128 _ h2⟩
    · exact ⟨keepB64_sextetChar _ h3, sextetChar_lt_128 _ h3⟩
    · exact ⟨keepB64_61, by omega⟩
    · simp at hy
  | case3 a =>
    have ha : a < 256 := hb a (by simp)
    have h1 : a / 4 < 64 := by omega
    have h2 : a % 4 * 16 < 64 := by omega
    intro y hy
    simp only [b64encodeL, List.mem_cons] at hy
    rcases hy with rfl | rfl | rfl | rfl | hy
    · exact ⟨keepB64_sextetChar _ h1, sextetChar_lt_128 _ h1⟩
    · exact ⟨keepB64_sextetChar _ h2, sextetChar_lt_128 _ h2⟩
    · exact ⟨keepB64_61, by omega⟩
    · exact ⟨keepB64_61, by omega⟩
    · simp at hy
  | case4 => intro y hy; simp [b64encodeL] at hy

theorem b64encodeL_filter (bs : List Nat) (hb : ∀ x ∈ bs, x < 256) :
    (b64encodeL bs).filter keepB64 = b64encodeL bs :=
  List.filter_eq_self.mpr (fun y hy => (b64encodeL_mem bs hb y hy).1)

theorem b64decodeGroups_encode (bs : List Nat) (hb : ∀ x ∈ bs, x < 256) :
    b64decodeGroups (b64encodeL bs) = some bs := by
  induction bs using b64encodeL.induct with
  | case1 a b c rest ih =>
    have ha : a < 256 := hb a (by simp)
    have hbb : b < 256 := hb b (by simp)
    have hc : c < 256 := hb c (by simp)
    have h1 : a / 4 < 64 := by omega
    have h2 : a % 4 * 16 + b / 16 < 64 := by omega
    have h3 : b % 16 * 4 + c / 64 < 64 := by omega
    have h4 : c % 64 < 64 := by omega
    have ihr := ih (fun x hx => hb x (by simp [hx]))
    simp [b64encodeL, b64decodeGroups, sextet_round _ h1, sextet_round _ h2,
      sextet_round _ h3, sextet_round _ h4, sextetChar_ne_61 _ h3, sextetChar_ne_61 _ h4, ihr]
    all_goals omega
  | case2 a b =>
    have ha : a < 256 := hb a (by simp)
    have hbb : b < 256 := hb b (by simp)
    have h1 : a / 4 < 64 := by omega
    have h2 : a % 4 * 16 + b / 16 < 64 := by omega
    have h3 : b % 16 * 4 < 64 := by omega
    simp [b64encodeL, b64decodeGroups, sextet_round _ h1, sextet_round _ h2,
      sextet_round _ h3, sextetChar_ne_61 _ h3]
    all_goals omega
  | case3 a =>
    have ha : a < 256 := hb a (by simp)
    have h1 : a / 4 < 64 := by omega
    have h2 : a % 4 * 16 < 64 := by omega
    simp [b64encodeL, b64decodeGroups, sextet_round _ h1, sextet_round _ h2]
    all_goals omega
  | case4 => simp [b64encodeL, b64decodeGroups]

theorem b64_roundtrip (bs : List Nat) (hb : ∀ x ∈ bs, x < 256) :
    b64decodeL (b64encodeL bs) = some bs := by
  rw [b64decodeL, b64encodeL_filter bs hb, b64decodeGroups_encode bs hb]

theorem natToBytes_lt (k x : Nat) : ∀ y ∈ natToBytes k x, y < 256 := by
  induction k generalizing x with
  | zero => simp [natToBytes]
  | succ k ih =>
    intro y hy
    simp only [natToBytes, List.mem_append, List.mem_singleton] at hy
    rcases hy with hy | rfl
    · exact ih (x / 256) y hy
    · omega

theorem bytesToNat_natToBytes_aux (k x a : Nat) :
    List.foldl (fun acc b => acc * 256 + b) a (natToBytes k x) = a * 256 ^ k + x % 256 ^ k := by
  induction k generalizing x a with
  | zero => simp [natToBytes, bytesToNat, Nat.mod_one]
  | succ k ih =>
    simp only [natToBytes, List.foldl_append, List.foldl_cons, List.foldl_nil, ih]
    have hmod : x % 256 ^ (k + 1) = x / 256 % 256 ^ k * 256 + x % 256 := by
      have h256 : (256 : Nat) ^ (k + 1) = 256 * 256 ^ k := by ring
      rw [h256, Nat.mod_mul]
      ring
    rw [hmod]
    ring

theorem bytesToNat_natToBytes (k x : Nat) (h : x < 256 ^ k) :
    bytesToNat (natToBytes k x) = x := by
  rw [bytesToNat, bytesToNat_natToBytes_aux, Nat.mod_eq_of_lt h]
  simp

theorem char_toNat_ofNat (x : Nat) (h : x < 128) : Char.toNat (Char.ofNat x) = x := by
  have hv : Nat.isValidChar x := Or.inl (by omega)
  simp [Char.ofNat, hv, Char.toNat, Char.ofNatAux, UInt32.toNat, UInt32.ofNatCore,
    BitVec.toNat_ofNatLt]

theorem strBytes_asciiStr (l : List Nat) (h : ∀ x ∈ l, x < 128) :
    strBytes (asciiStr l) = l := by
  induction l with
  | nil => rfl
  | cons x t ih =>
    have hx : x < 128 := h x (by simp)
    have ht := ih (fun y hy => h y (by simp [hy]))
    simp only [strBytes, asciiStr] at ht ⊢
    simp [char_toNat_ofNat x hx, ht]

theorem b64encodeL_length (bs : List Nat) :
    (b64encodeL bs).length = 4 * ((bs.length + 2) / 3) := by
  induction bs using b64encodeL.induct with
  | case1 a b c rest ih => simp [b64encodeL, ih]; omega
  | case2 a b => simp [b64encodeL]
  | case3 a => simp [b64encodeL]
  | case4 => simp [b64encodeL]

/-- The verification of a freshly produced signature succeeds for any RSA
key material satisfying the RSA inversion property, any digest encoding
below the modulus, and any payload. -/
theorem verify_sign (key : RsaKey) (emsa : List Nat → Nat) (payload : List (String × Value))
    (hn : 1 < key.n) (hk : key.n ≤ 256 ^ key.k)
    (hkey : ∀ m, m < key.n → (m ^ key.d) ^ key.e % key.n = m % key.n)
    (hm : emsa (mk_msg_for_sign payload) < key.n) :
    verify payload (sign payload key emsa) key emsa = .ok true := by
  set m := emsa (mk_msg_for_sign payload) with hmdef
  have hlt : m ^ key.d % key.n < key.n := Nat.mod_lt _ (by omega)
  have hbytes : ∀ y ∈ natToBytes key.k (m ^ key.d % key.n), y < 256 := natToBytes_lt _ _
  have h128 : ∀ y ∈ b64encodeL (natToBytes key.k (m ^ key.d % key.n)), y < 128 :=
    fun y hy => (b64encodeL_mem _ hbytes y hy).2
  rw [verify, sign, strBytes_asciiStr _ h128, b64_roundtrip _ hbytes]
  have hred : bytesToNat (natToBytes key.k (m ^ key.d % key.n)) = m ^ key.d % key.n :=
    bytesToNat_natToBytes _ _ (by omega)
  have hpow : (m ^ key.d % key.n) ^ key.e % key.n = (m ^ key.d) ^ key.e % key.n :=
    Nat.pow_mod _ _ _ ▸ (Nat.pow_mod (m ^ key.d) key.e key.n).symm
  simp [hred, hpow, hkey m hm, Nat.mod_eq_of_lt hm]

/-! ## UTF-8 versus the spec's character-reference escaping -/

theorem utf8Bytes_ascii (c : Char) (h : c.toNat < 128) : utf8Bytes c = [c.toNat] := by
  simp [utf8Bytes, h]

theorem specEscChar_ascii (c : Char) (h : c.toNat < 128) : specEscChar c = [c.toNat] := by
  simp [specEscChar, h]

theorem utf8Bytes_head_nonascii (c : Char) (h : 128 ≤ c.toNat) :
    ∃ b t, utf8Bytes c = b :: t ∧ 194 ≤ b := by
  have h1 : ¬ c.toNat < 128 := by omega
  by_cases h2 : c.toNat < 2048
  · refine ⟨192 + c.toNat / 64, [128 + c.toNat % 64], ?_, by omega⟩
    simp [utf8Bytes, h1, h2]
  by_cases h3 : c.toNat < 65536
  · refine ⟨224 + c.toNat / 4096, [128 + c.toNat / 64 % 64, 128 + c.toNat % 64], ?_, by omega⟩
    simp [utf8Bytes, h1, h2, h3]
  refine ⟨240 + c.toNat / 262144,
    [128 + c.toNat / 4096 % 64, 128 + c.toNat / 64 % 64, 128 + c.toNat % 64], ?_, by omega⟩
  simp [utf8Bytes, h1, h2, h3]

theorem specEscChar_head_nonascii (c : Char) (h : 128 ≤ c.toNat) :
    ∃ t, specEscChar c = 38 :: t := by
  have h1 : ¬ c.toNat < 128 := by omega
  refine ⟨strBytes ("#" ++ toString c.toNat ++ ";"), ?_⟩
  simp [specEscChar, h1, strBytes]

theorem flatBytes_eq_spec_iff (l : List Char) :
    flatBytes l = specEscBytes l ↔ ∀ c ∈ l, c.toNat < 128 := by
  induction l with
  | nil => simp [flatBytes, specEscBytes]
  | cons c t ih =>
    by_cases h : c.toNat < 128
    · simp [flatBytes, specEscBytes, utf8Bytes_ascii c h, specEscChar_ascii c h, h, ih]
    · constructor
      · intro heq
        exfalso
        obtain ⟨b, tb, hb, hbge⟩ := utf8Bytes_head_nonascii c (by omega)
        obtain ⟨ts, hs⟩ := specEscChar_head_nonascii c (by omega)
        rw [flatBytes, specEscBytes, hb, hs] at heq
        simp only [List.cons_append, List.cons.injEq] at heq
        omega
      · intro hall
        exact absurd (hall c (by simp)) h

/-! ## Dictionary and pipeline lemmas -/

theorem dictGet_dictSet_same (d : List (String × Value)) (k : String) (v : Value) :
    dictGet (dictSet d k v) k = some v := by
  induction d with
  | nil => simp [dictGet, dictSet]
  | cons kv t ih =>
    by_cases h : kv.1 = k
    · simp [dictGet, dictSet, h]
    · simp [dictGet, dictSet, h, ih]

theorem dictGet_dictSet_other (d : List (String × Value)) (k k2 : String) (v : Value)
    (h : k ≠ k2) : dictGet (dictSet d k v) k2 = dictGet d k2 := by
  induction d with
  | nil => simp [dictGet, dictSet, h]
  | cons kv t ih =>
    by_cases h1 : kv.1 = k
    · simp [dictGet, dictSet, h1, h]
    · by_cases h2 : kv.1 = k2
      · simp [dictGet, dictSet, h1, h2, Ne.symm h]
      · simp [dictGet, dictSet, h1, h2, ih]

theorem gatewayProject_get (datadict : List (String × Value)) (kk : String) (v : Value)
    (hk1 : kk ≠ "resultCode") (hk2 : kk ≠ "paymentStatus")
    (hv : dictGet datadict kk = some v) :
    ∀ ks o, gatewayProject datadict ks = .ok o → kk ∈ ks → dictGet o kk = some v := by
  intro ks
  induction ks with
  | nil => simp
  | cons k ks ih =>
    intro o hproj hmem
    by_cases hkk : k = kk
    · subst hkk
      rw [gatewayProject] at hproj
      simp only [hv, hk1, hk2, or_self, if_false] at hproj
      cases hrest : gatewayProject datadict ks with
      | error e => simp [hrest] at hproj
      | ok rest =>
        simp only [hrest, Except.ok.injEq] at hproj
        subst hproj
        simp [dictGet]
    · have hmem2 : kk ∈ ks := by
        rcases List.mem_cons.mp hmem with h | h
        · exact absurd h.symm hkk
        · exact h
      rw [gatewayProject] at hproj
      cases hget : dictGet datadict k with
      | none => simp only [hget] at hproj; exact ih o hproj hmem2
      | some w =>
        simp only [hget] at hproj
        cases hconv : (if k = "resultCode" ∨ k = "paymentStatus" then pyIntConv w else Except.ok w) with
        | error e => simp [hconv] at hproj
        | ok v1 =>
          simp only [hconv] at hproj
          cases hrest : gatewayProject datadict ks with
          | error e => simp [hrest] at hproj
          | ok rest =>
            simp only [hrest, Except.ok.injEq] at hproj
            subst hproj
            simp [dictGet, hkk, ih rest hrest hmem2]

theorem dttmStep_get (p p2 : List (String × Value)) (kk : String) (hkk : kk ≠ "dttime")
    (hstep : dttmStep p = .ok p2) : dictGet p2 kk = dictGet p kk := by
  rw [dttmStep] at hstep
  cases hget : dictGet p "dttm" with
  | none =>
    simp only [hget, Except.ok.injEq] at hstep
    rw [hstep]
  | some v =>
    simp only [hget] at hstep
    cases v with
    | vStr s =>
      cases hdec : dttm_decode s with
      | none => simp [hdec] at hstep
      | some d =>
        simp only [hdec, Except.ok.injEq] at hstep
        subst hstep
        exact dictGet_dictSet_other p "dttime" kk _ (fun h => hkk h.symm)
    | vInt i => simp at hstep
    | vBool b => simp at hstep
    | vList l => simp at hstep
    | vDict d => simp at hstep
    | vNone => simp at hstep
    | vBytes b => simp at hstep
    | vDt d => simp at hstep

theorem process_extensions_append (key : RsaKey) (emsa : List Nat → Nat)
    (l : List Value) :
    ∀ pre es, process_extensions key emsa pre = .ok es →
      process_extensions key emsa (pre ++ l) =
        (process_extensions key emsa l).map (fun es2 => es ++ es2) := by
  intro pre
  induction pre with
  | nil =>
    intro es h
    simp only [process_extensions] at h
    simp only [Except.ok.injEq] at h
    subst h
    cases hl : process_extensions key emsa l <;> simp [Except.map, hl]
  | cons one rest ih =>
    intro es h
    cases one with
    | vDict d =>
      rw [process_extensions] at h
      rw [List.cons_append, process_extensions]
      cases hdisc : dictGet d "extension" with
      | none => simp [hdisc] at h
      | some disc =>
        simp only [hdisc] at h ⊢
        by_cases hmask : isMaskClnRP disc
        · simp only [hmask, if_true] at h ⊢
          cases hsig : dictGet d "signature" with
          | none => simp [hsig] at h
          | some sv =>
            simp only [hsig] at h ⊢
            cases sv with
            | vStr s =>
              cases hver : verify (projectKeys maskclnrpKeys d) s key emsa with
              | error e => simp [hver] at h
              | ok b =>
                simp only [hver] at h ⊢
                cases b with
                | false => simp at h
                | true =>
                  cases hrest : process_extensions key emsa rest with
                  | error e => simp [hrest, Except.map] at h
                  | ok es1 =>
                    simp only [hrest, Except.map, Except.ok.injEq] at h
                    subst h
                    rw [ih es1 hrest]
                    cases hl : process_extensions key emsa l <;> simp [Except.map, hl]
            | vInt i => simp at h
            | vBool b => simp at h
            | vList l2 => simp at h
            | vDict d2 => simp at h
            | vNone => simp at h
            | vBytes b => simp at h
            | vDt d2 => simp at h
        · simp only [hmask, if_false] at h ⊢
          exact ih es h
    | vStr s => simp [process_extensions] at h
    | vInt i => simp [process_extensions] at h
    | vBool b => simp [process_extensions] at h
    | vList l2 => simp [process_extensions] at h
    | vNone => simp [process_extensions] at h
    | vBytes b => simp [process_extensions] at h
    | vDt d2 => simp [process_extensions] at h

/-! ## Normalization lemmas -/

theorem mk_msg_list_eq_foldr (l : List Value) :
    mk_msg_list l = l.foldr (fun v acc => mk_msg_item v ++ acc) [] := by
  induction l with
  | nil => simp [mk_msg_list]
  | cons v t ih => simp [mk_msg_list, ih]

theorem mk_msg_dict_eq_foldr (d : List (String × Value)) :
    mk_msg_dict d = d.foldr (fun kv acc => mk_msg_item kv.2 ++ acc) [] := by
  induction d with
  | nil => simp [mk_msg_dict]
  | cons kv t ih =>
    cases kv
    simp [mk_msg_dict, ih]

theorem pyTruncate_short (n : Nat) (s : String) (h : s.length ≤ n) :
    pyTruncate n s = pyRstrip s := by
  rw [pyTruncate, pyRstrip]
  have hdata : s.data.take n = s.data := List.take_of_length_le h
  rw [hdata]
  cases s
  rfl

/-! ## Concrete fixture key material

A tiny RSA keypair satisfying the inversion property (`n = 33`, `e = 3`,
`d = 7`, one-octet modulus) and a constant digest encoding, used to run the
embedded functions on closed inputs. -/

def key0 : RsaKey := ⟨33, 3, 7, 1⟩

def emsa0 : List Nat → Nat := fun _ => 5

/-! ## Claim theorems -/

/-- C1 (counterexample): the payload `a ↦ "á"` (U+00E1, non-ASCII) is hashed
as its raw UTF-8 bytes `[195, 161]`, not as the spec's numeric character
reference `&#225;` — `encode('utf-8', 'xmlcharrefreplace')` never escapes,
because utf-8 encodes every code point. -/
theorem mk_msg_for_sign_nonascii_raw :
    mk_msg_for_sign [("a", .vStr "á")] = [195, 161] ∧
    mk_msg_for_sign [("a", .vStr "á")] ≠ specXmlcharrefEncode [("a", .vStr "á")] ∧
    specXmlcharrefEncode [("a", .vStr "á")] = strBytes "&#225;" := by
  decide

/-- C1 (amended): the bytes hashed for signing are the plain UTF-8 encoding
of the `|`-join of the flattened tokens; they coincide with the spec's
character-reference-escaped encoding exactly when the joined string is pure
ASCII. -/
theorem mk_msg_for_sign_spec_escape_iff_ascii (p : List (String × Value)) :
    mk_msg_for_sign p = specXmlcharrefEncode p ↔
      ∀ c ∈ (String.intercalate "|" (mk_msg_item (.vDict p))).data, c.toNat < 128 :=
  flatBytes_eq_spec_iff _

/-- C8: the flattener walks lists and ordered maps in order concatenating
the element token lists, renders booleans as lowercase `true` / `false`,
renders other scalars as their stripped string form, contributes zero
tokens for empty values, and on the nested example
`a ↦ X, b ↦ (c ↦ Y), d ↦ [e ↦ Z]` yields tokens `X, Y, Z` and canonical
bytes `X|Y|Z`. -/
theorem mk_msg_item_flattening :
    (mk_msg_item (.vBool true) = ["true"] ∧ mk_msg_item (.vBool false) = ["false"]) ∧
    (∀ l : List Value, mk_msg_item (.vList l) = l.foldr (fun v acc => mk_msg_item v ++ acc) []) ∧
    (∀ d : List (String × Value),
      mk_msg_item (.vDict d) = d.foldr (fun kv acc => mk_msg_item kv.2 ++ acc) []) ∧
    (∀ v : Value, isEmptyValue v = true → mk_msg_item v = []) ∧
    (∀ s : String, s ≠ "" → mk_msg_item (.vStr s) = [pyStrip s]) ∧
    (∀ i : Int, mk_msg_item (.vInt i) = [pyStrip (toString i)]) ∧
    mk_msg_item (.vDict [("a", .vStr "X"), ("b", .vDict [("c", .vStr "Y")]),
      ("d", .vList [.vDict [("e", .vStr "Z")]])]) = ["X", "Y", "Z"] ∧
    mk_msg_for_sign [("a", .vStr "X"), ("b", .vDict [("c", .vStr "Y")]),
      ("d", .vList [.vDict [("e", .vStr "Z")]])] = strBytes "X|Y|Z" := by
  refine ⟨⟨by decide, by decide⟩, ?_, ?_, ?_, ?_, ?_, by decide, by decide⟩
  · intro l
    cases l with
    | nil => rfl
    | cons v t => simp [mk_msg_item, isEmptyValue, mk_msg_list_eq_foldr, mk_msg_list]
  · intro d
    cases d with
    | nil => rfl
    | cons kv t =>
      cases kv
      simp [mk_msg_item, isEmptyValue, mk_msg_dict_eq_foldr, mk_msg_dict]
  · intro v hv
    cases v with
    | vList l =>
      cases l with
      | nil => rfl
      | cons a t => simp [isEmptyValue] at hv
    | vDict d =>
      cases d with
      | nil => rfl
      | cons a t => simp [isEmptyValue] at hv
    | vStr s =>
      simp only [isEmptyValue, decide_eq_true_eq] at hv
      simp [mk_msg_item, isEmptyValue, hv]
    | vNone => rfl
    | vInt i => simp [isEmptyValue] at hv
    | vBool b => simp [isEmptyValue] at hv
    | vBytes b => simp [isEmptyValue] at hv
    | vDt d => simp [isEmptyValue] at hv
  · intro s hs
    simp [mk_msg_item, isEmptyValue, str_or_jsbool, hs]
  · intro i
    simp [mk_msg_item, isEmptyValue, str_or_jsbool]

/-- C8 (witness): the empty-value and scalar clauses at concrete inputs. -/
theorem mk_msg_item_flattening_witness :
    mk_msg_item .vNone = [] ∧ mk_msg_item (.vStr " X ") = [pyStrip " X "] :=
  ⟨mk_msg_item_flattening.2.2.2.1 .vNone (by decide),
   mk_msg_item_flattening.2.2.2.2.1 " X " (by decide)⟩

/-- C2 (counterexample): a `Customer` whose `account` is a
`CustomerAccount` with every field empty normalizes to an ordered map that
*does* contain the key `account`, bound to an empty map — the emptiness
test runs on the raw dataclass instance before the nested `to_dict`
conversion, so the key is not omitted. -/
theorem to_dict_empty_nested_included :
    Customer.to_dict { name := "x", account := some {} } =
      [("name", Value.vStr "x"), ("account", Value.vDict [])] ∧
    ("account", Value.vDict []) ∈ Customer.to_dict { name := "x", account := some {} } := by
  constructor
  · rfl
  · exact List.mem_cons_of_mem _ (List.mem_cons_self _ _)

/-- C2 (amended): for every `Customer` whose `account` record normalizes to
an entirely empty ordered map, `to_dict` keeps the `account` key, bound to
the empty map; the empty nested map contributes zero tokens to the
canonical string, so only the serialized request (not the signature) sees
the stray key. -/
theorem to_dict_empty_nested_key_kept (c : Customer) (acc : CustomerAccount)
    (hacc : c.account = some acc) (hempty : CustomerAccount.to_dict acc = []) :
    ("account", Value.vDict []) ∈ Customer.to_dict c ∧
    mk_msg_item (Value.vDict []) = [] := by
  constructor
  · rw [Customer.to_dict]
    simp only [hacc, hempty]
    simp
  · rfl

/-- C2 (witness): the amended claim at the all-empty account. -/
theorem to_dict_empty_nested_key_kept_witness :
    ("account", Value.vDict []) ∈
      Customer.to_dict { name := "x", account := some ({} : CustomerAccount) } ∧
    mk_msg_item (Value.vDict []) = [] :=
  to_dict_empty_nested_key_kept { name := "x", account := some {} } {} rfl rfl

/-- C3 (counterexample): `verify` is not total — on the malformed base64
signature `"x"` it raises `binascii.Error` (from `b64decode`) instead of
returning a boolean. -/
theorem verify_raises_on_malformed_b64 :
    verify ([] : List (String × Value)) "x" key0 emsa0 = .error .binasciiError ∧
    ¬ ∃ b, verify ([] : List (String × Value)) "x" key0 emsa0 = .ok b := by
  constructor
  · rfl
  · rintro ⟨b, hb⟩
    rw [show verify ([] : List (String × Value)) "x" key0 emsa0 =
        Except.error PyErr.binasciiError from rfl] at hb
    exact Except.noConfusion hb

/-- C3 (amended): `verify` raises exactly when the signature's base64
decoding fails (`binascii.Error`, distinct from a mismatch); for a
well-formed signature it returns the boolean comparison of the RSA public
operation against the recomputed digest encoding, a mismatch being the
`false` return value.  Malformed key material fails earlier, at `pkcs1`
key load, not inside `verify`. -/
theorem verify_error_iff_malformed_b64 (p : List (String × Value)) (s : String)
    (key : RsaKey) (emsa : List Nat → Nat) :
    ((∃ e, verify p s key emsa = .error e) ↔ b64decodeL (strBytes s) = none) ∧
    (∀ bs, b64decodeL (strBytes s) = some bs →
      verify p s key emsa = .ok (bytesToNat bs ^ key.e % key.n == emsa (mk_msg_for_sign p))) := by
  constructor
  · constructor
    · rintro ⟨e, he⟩
      rw [verify] at he
      cases hdec : b64decodeL (strBytes s) with
      | none => rfl
      | some bs => simp [hdec] at he
    · intro hdec
      refine ⟨.binasciiError, ?_⟩
      rw [verify]
      simp [hdec]
  · intro bs hdec
    rw [verify]
    simp [hdec]

/-- C3 (witness): the well-formed-signature clause at the concrete
signature `AA==`. -/
theorem verify_error_iff_malformed_b64_witness :
    b64decodeL (strBytes "AA==") = some [0] ∧
    verify ([] : List (String × Value)) "AA==" key0 emsa0 =
      .ok (bytesToNat [0] ^ key0.e % key0.n == emsa0 (mk_msg_for_sign [])) :=
  ⟨by decide,
   (verify_error_iff_malformed_b64 [] "AA==" key0 emsa0).2 [0] (by decide)⟩

/-- C7 (counterexample): a string field below its declared maximum length is
not left unchanged — `CartItem` name `"ab "` (3 ≤ 20 characters) is
right-stripped to `"ab"` by `value[:20].rstrip()`. -/
theorem cartitem_short_name_rstripped :
    CartItem.to_dict { name := "ab ", quantity := 5, amount := 1000 } =
      [("name", Value.vStr "ab"), ("quantity", Value.vInt 5), ("amount", Value.vInt 1000)] ∧
    ("ab " : String).length ≤ 20 ∧ ("ab" : String) ≠ "ab " := by
  exact ⟨rfl, by decide, by decide⟩

/-- C7 (amended): a string field with declared maximum N truncates to the
first N characters then strips trailing whitespace; an input of length at
most N yields the input with trailing whitespace stripped (the truncation
step is the identity).  The concrete cart-item scenario holds as stated:
name truncated to 20 characters, description key absent. -/
theorem truncation_law_amended :
    (∀ (n : Nat) (s : String), s.length ≤ n → pyTruncate n s = pyRstrip s) ∧
    (∀ c : CartItem, c.name ≠ "" →
      dictGet (CartItem.to_dict c) "name" = some (.vStr (pyTruncate 20 c.name))) ∧
    CartItem.to_dict { name := "01234567890123456789xxx", quantity := 5, amount := 1000 } =
      [("name", Value.vStr "01234567890123456789"),
       ("quantity", Value.vInt 5), ("amount", Value.vInt 1000)] := by
  refine ⟨fun n s h => pyTruncate_short n s h, ?_, rfl⟩
  intro c hname
  simp [CartItem.to_dict, hname, dictGet]

/-- C7 (witness): the truncation clauses at concrete inputs. -/
theorem truncation_law_amended_witness :
    pyTruncate 20 "ab " = pyRstrip "ab " ∧
    dictGet (CartItem.to_dict { name := "ab ", quantity := 1, amount := 2 }) "name" =
      some (.vStr (pyTruncate 20 "ab ")) :=
  ⟨truncation_law_amended.1 20 "ab " (by decide),
   truncation_law_amended.2.1 { name := "ab ", quantity := 1, amount := 2 } (by decide)⟩

/-- C9: for every ordered map and every RSA key material satisfying the RSA
inversion property (with the digest encoding below the modulus),
`verify(M, sign(M, priv), pub)` returns `true`. -/
theorem sign_verify_roundtrip (key : RsaKey) (emsa : List Nat → Nat)
    (payload : List (String × Value)) (hn : 1 < key.n) (hk : key.n ≤ 256 ^ key.k)
    (hkey : ∀ m, m < key.n → (m ^ key.d) ^ key.e % key.n = m % key.n)
    (hm : emsa (mk_msg_for_sign payload) < key.n) :
    verify payload (sign payload key emsa) key emsa = .ok true :=
  verify_sign key emsa payload hn hk hkey hm

/-- C9 (witness): the roundtrip at the fixture keypair `n = 33`, `e = 3`,
`d = 7` and the empty payload. -/
theorem sign_verify_roundtrip_witness :
    verify ([] : List (String × Value)) (sign [] key0 emsa0) key0 emsa0 = .ok true :=
  sign_verify_roundtrip key0 emsa0 [] (by decide) (by decide) (by decide) (by decide)

/-- C10: the extension loop of `validate_response` skips every element
whose `extension` discriminator is not `maskClnRP` entirely — its embedded
signature is never verified, it is not exposed, and no error is raised:
processing the list is the same as processing it without the element, and a
list of only non-matching extensions yields the empty exposed list. -/
theorem extensions_skip_non_maskclnrp :
    (∀ (key : RsaKey) (emsa : List Nat → Nat) (d : List (String × Value))
      (rest : List Value) (v : Value),
      dictGet d "extension" = some v → isMaskClnRP v = false →
      process_extensions key emsa (.vDict d :: rest) = process_extensions key emsa rest) ∧
    (∀ (key : RsaKey) (emsa : List Nat → Nat) (exts : List Value),
      (∀ x ∈ exts, ∃ d v, x = Value.vDict d ∧ dictGet d "extension" = some v ∧
        isMaskClnRP v = false) →
      process_extensions key emsa exts = .ok []) := by
  have hskip : ∀ (key : RsaKey) (emsa : List Nat → Nat) (d : List (String × Value))
      (rest : List Value) (v : Value),
      dictGet d "extension" = some v → isMaskClnRP v = false →
      process_extensions key emsa (.vDict d :: rest) = process_extensions key emsa rest := by
    intro key emsa d rest v hv hb
    rw [process_extensions]
    simp [hv, hb]
  refine ⟨hskip, ?_⟩
  intro key emsa exts hall
  induction exts with
  | nil => rfl
  | cons x t ih =>
    obtain ⟨d, v, rfl, hv, hb⟩ := hall x (by simp)
    rw [hskip key emsa d t v hv hb]
    exact ih (fun y hy => hall y (by simp [hy]))

/-- C10 (witness): the skip clause at a concrete non-matching extension. -/
theorem extensions_skip_non_maskclnrp_witness :
    process_extensions key0 emsa0 [.vDict [("extension", .vStr "other")]] =
      process_extensions key0 emsa0 [] ∧
    process_extensions key0 emsa0 [.vDict [("extension", .vStr "other")]] = .ok [] :=
  ⟨extensions_skip_non_maskclnrp.1 key0 emsa0 [("extension", .vStr "other")] [] (.vStr "other")
      rfl (by decide),
   extensions_skip_non_maskclnrp.2 key0 emsa0 [.vDict [("extension", .vStr "other")]]
      (fun x hx => by
        rw [List.mem_singleton] at hx
        subst hx
        exact ⟨[("extension", .vStr "other")], .vStr "other", rfl, rfl, by decide⟩)⟩

/-- C5: a response whose top-level signature verifies but that carries a
`maskClnRP` extension whose own embedded signature fails verification makes
`validate_response` raise `CsobVerifyError` — the whole validation fails
and no partial result is returned. -/
theorem validate_response_extension_failure_aborts
    (key : RsaKey) (emsa : List Nat → Nat)
    (body data p2 : List (String × Value)) (sigS : String)
    (exts pre rest : List Value) (d : List (String × Value))
    (es : List (List (String × Value))) (extSig : String)
    (hpop : dictPop body "signature" = some (.vStr sigS, data))
    (htop : verify (projectKeys RESPONSE_KEYS data) sigS key emsa = .ok true)
    (hdttm : dttmStep (projectKeys RESPONSE_KEYS data) = .ok p2)
    (hexts : dictGet data "extensions" = some (.vList exts))
    (hsplit : exts = pre ++ Value.vDict d :: rest)
    (hpre : process_extensions key emsa pre = .ok es)
    (hdisc : dictGet d "extension" = some (.vStr "maskClnRP"))
    (hsig : dictGet d "signature" = some (.vStr extSig))
    (hver : verify (projectKeys maskclnrpKeys d) extSig key emsa = .ok false) :
    validate_response body key emsa =
      .error (.csobVerifyError "Cannot verify masked card extension response") := by
  have hbad : process_extensions key emsa (Value.vDict d :: rest) =
      .error (.csobVerifyError "Cannot verify masked card extension response") := by
    rw [process_extensions]
    simp [hdisc, isMaskClnRP, hsig, hver]
  have hproc : process_extensions key emsa exts =
      .error (.csobVerifyError "Cannot verify masked card extension response") := by
    rw [hsplit, process_extensions_append key emsa (Value.vDict d :: rest) pre es hpre, hbad]
    rfl
  rw [validate_response]
  simp only [hpop, htop, hdttm, hexts, hproc]

/-- C5 (witness): a concrete response with a valid top-level signature and
one failing `maskClnRP` extension is rejected wholesale. -/
theorem validate_response_extension_failure_aborts_witness :
    validate_response
      [("signature", .vStr "Dg=="),
       ("extensions", .vList [.vDict [("extension", .vStr "maskClnRP"),
                                      ("signature", .vStr "AA==")]])]
      key0 emsa0 =
      .error (.csobVerifyError "Cannot verify masked card extension response") :=
  validate_response_extension_failure_aborts key0 emsa0
    [("signature", .vStr "Dg=="),
     ("extensions", .vList [.vDict [("extension", .vStr "maskClnRP"),
                                    ("signature", .vStr "AA==")]])]
    [("extensions", .vList [.vDict [("extension", .vStr "maskClnRP"),
                                    ("signature", .vStr "AA==")]])]
    [] "Dg=="
    [.vDict [("extension", .vStr "maskClnRP"), ("signature", .vStr "AA==")]]
    [] []
    [("extension", .vStr "maskClnRP"), ("signature", .vStr "AA==")]
    [] "AA=="
    rfl rfl rfl rfl rfl rfl rfl rfl rfl

/-- C4 (counterexample): a response body accepted by `validate_response`
with a `merchantData` field keeps the field's base64 string in the returned
payload — `validate_response` never decodes it (`"Rm9v"` would decode to
the raw bytes of `Foo`). -/
theorem validate_response_merchantdata_left_encoded :
    validate_response [("merchantData", Value.vStr "Rm9v"), ("signature", Value.vStr "Dg==")]
        key0 emsa0 = .ok ⟨[("merchantData", Value.vStr "Rm9v")], []⟩ ∧
    b64decodeL (strBytes "Rm9v") = some [70, 111, 111] ∧
    Value.vStr "Rm9v" ≠ Value.vBytes [70, 111, 111] :=
  ⟨rfl, by decide, fun h => Value.noConfusion h⟩

/-- C4 (amended): it is the gateway-return validator (`_gateway_return`)
that base64-decodes a `merchantData` field to raw bytes in the payload it
returns; `validate_response` leaves the field encoded. -/
theorem gateway_return_merchantdata_decoded (datadict : List (String × Value))
    (key : RsaKey) (emsa : List Nat → Nat) (res : List (String × Value)) (s : String)
    (hmd : dictGet datadict "merchantData" = some (.vStr s))
    (hok : gateway_return datadict key emsa = .ok res) :
    ∃ bs, b64decodeL (strBytes s) = some bs ∧
      dictGet res "merchantData" = some (.vBytes bs) := by
  rw [gateway_return] at hok
  cases hproj : gatewayProject datadict RESPONSE_KEYS with
  | error e => simp [hproj] at hok
  | ok o =>
    simp only [hproj] at hok
    have ho : dictGet o "merchantData" = some (.vStr s) :=
      gatewayProject_get datadict "merchantData" (.vStr s) (by decide) (by decide) hmd
        RESPONSE_KEYS o hproj (by decide)
    cases hsig : dictGet datadict "signature" with
    | none => simp [hsig] at hok
    | some sv =>
      simp only [hsig] at hok
      cases sv with
      | vStr sigS =>
        cases hver : verify o sigS key emsa with
        | error e => simp [hver] at hok
        | ok b =>
          simp only [hver] at hok
          cases b with
          | false => simp at hok
          | true =>
            cases hstep : dttmStep o with
            | error e => simp [hstep] at hok
            | ok o2 =>
              simp only [hstep] at hok
              have ho2 : dictGet o2 "merchantData" = some (.vStr s) := by
                rw [dttmStep_get o o2 "merchantData" (by decide) hstep, ho]
              simp only [ho2] at hok
              cases hdec : b64decodeL (strBytes s) with
              | none => simp [hdec] at hok
              | some bs =>
                simp only [hdec, Except.ok.injEq] at hok
                subst hok
                exact ⟨bs, rfl, dictGet_dictSet_same o2 "merchantData" (.vBytes bs)⟩
      | vInt i => simp at hok
      | vBool b => simp at hok
      | vList l => simp at hok
      | vDict d => simp at hok
      | vNone => simp at hok
      | vBytes b => simp at hok
      | vDt d => simp at hok

/-- C4 (witness): the gateway return of `merchantData = "Rm9v"` decodes it
to the raw bytes of `Foo`. -/
theorem gateway_return_merchantdata_decoded_witness :
    ∃ bs, b64decodeL (strBytes "Rm9v") = some bs ∧
      dictGet [("merchantData", Value.vBytes [70, 111, 111])] "merchantData" =
        some (.vBytes bs) :=
  gateway_return_merchantdata_decoded
    [("merchantData", .vStr "Rm9v"), ("signature", .vStr "Dg==")]
    key0 emsa0 [("merchantData", Value.vBytes [70, 111, 111])] "Rm9v" rfl rfl

/-- C6: `encode_merchant_data` passes `None` through, raises `ValueError`
exactly when the base64 encoding of its argument exceeds 255 characters
(the encoding's length is always a multiple of 4, so a length of exactly
255 never occurs and is trivially accepted), and in `payment_init` this
rejection happens while the request payload is being built — before
anything is handed to the network layer. -/
theorem encode_merchant_data_bound :
    (encode_merchant_data none = .ok none) ∧
    (∀ md : Option (List Nat), (∃ e, encode_merchant_data md = .error e) ↔
      ∃ bs, md = some bs ∧ 255 < (b64encodeL bs).length) ∧
    (∀ bs : List Nat, (b64encodeL bs).length % 4 = 0) ∧
    (∀ (a : PaymentInitArgs) (key : RsaKey) (emsa : List Nat → Nat) (bs : List Nat),
      a.merchant_data = some bs → 255 < (b64encodeL bs).length →
      payment_init_request a key emsa =
        .error (.valueError "Merchant data length encoded to BASE64 is over 255 chars")) := by
  refine ⟨rfl, ?_, ?_, ?_⟩
  · intro md
    constructor
    · rintro ⟨e, he⟩
      cases md with
      | none => simp [encode_merchant_data] at he
      | some bs =>
        by_cases hlen : 255 < (b64encodeL bs).length
        · exact ⟨bs, rfl, hlen⟩
        · simp [encode_merchant_data, hlen] at he
    · rintro ⟨bs, rfl, hlen⟩
      exact ⟨.valueError "Merchant data length encoded to BASE64 is over 255 chars",
        by simp [encode_merchant_data, hlen]⟩
  · intro bs
    rw [b64encodeL_length]
    omega
  · intro a key emsa bs hmd hlen
    have henc : encode_merchant_data a.merchant_data =
        .error (.valueError "Merchant data length encoded to BASE64 is over 255 chars") := by
      rw [hmd]
      simp [encode_merchant_data, hlen]
    rw [payment_init_request]
    simp only [henc]

set_option maxRecDepth 4000 in
/-- C6 (witness): 240 bytes encode to 320 base64 characters, so
`payment_init` rejects them before any network call. -/
theorem encode_merchant_data_bound_witness :
    payment_init_request
      { merchant_id := "M", order_no := "1", dttm := "20190502161426",
        pay_operation := "payment", pay_method := "card", total_amount := 100,
        currency := "CZK", close_payment := true, return_url := "http://e",
        return_method := "POST", cart := [], language := "cs", ttl_sec := 600,
        merchant_data := some (List.replicate 240 70) }
      key0 emsa0 =
      .error (.valueError "Merchant data length encoded to BASE64 is over 255 chars") :=
  encode_merchant_data_bound.2.2.2
    { merchant_id := "M", order_no := "1", dttm := "20190502161426",
      pay_operation := "payment", pay_method := "card", total_amount := 100,
      currency := "CZK", close_payment := true, return_url := "http://e",
      return_method := "POST", cart := [], language := "cs", ttl_sec := 600,
      merchant_data := some (List.replicate 240 70) }
    key0 emsa0 (List.replicate 240 70) rfl (by decide)

end Pycsob
